import Mathlib

/-!
Verification of the enso bundle serializer (`src/bundle/core.rs`) and the
paginated tokens stream (`src/metadata/tokens.rs`).

JSON values (`serde_json::Value`) are modelled by `JValue`; the only number
that the serializer ever produces is a transaction index (`usize`), so the
numeric case carries a `Nat`.  `serde_json::Map` is, with default features,
a `BTreeMap<String, Value>`: it is modelled as a key-sorted association
list maintained by `btreeInsert` (insert replaces an existing key).
The final `serde_json::to_string` rendering step is an injective printing
of this tree and is not modelled; all statements are about the tree.
-/

namespace Enso

inductive JValue where
  | str : String → JValue
  | num : Nat → JValue
  | arr : List JValue → JValue
  | obj : List (String × JValue) → JValue

/-- Lexicographic order on code points; on UTF-8 strings this agrees with
Rust's byte-wise `Ord for String` that `BTreeMap<String, _>` sorts by. -/
def charsLt : List Char → List Char → Bool
  | [], [] => false
  | [], _ :: _ => true
  | _ :: _, [] => false
  | a :: as, b :: bs =>
    if a.val < b.val then true
    else if b.val < a.val then false
    else charsLt as bs

def strLt (a b : String) : Bool := charsLt a.data b.data

/-- `BTreeMap::insert` on a key-sorted association list: keeps the list
sorted by key and replaces the value when the key is already present. -/
def btreeInsert (k : String) (v : JValue) : List (String × JValue) → List (String × JValue)
  | [] => [(k, v)]
  | (k₁, v₁) :: rest =>
    if strLt k k₁ then (k, v) :: (k₁, v₁) :: rest
    else if k = k₁ then (k, v) :: rest
    else (k₁, v₁) :: btreeInsert k v rest

/-- `BTreeMap::get`: lookup of a key in the association list. -/
def jget (q : String) : List (String × JValue) → Option JValue
  | [] => none
  | (k, v) :: rest => if q = k then some v else jget q rest

/-- A `for` loop inserting a sequence of (key, value) pairs into a map. -/
def insertAll (m : List (String × JValue)) : List (String × JValue) → List (String × JValue)
  | [] => m
  | (k, v) :: rest => insertAll (btreeInsert k v m) rest

/-- Lookup of a field of a JSON object value. -/
def objLookup (q : String) : JValue → Option JValue
  | JValue.obj m => jget q m
  | _ => none

/-- `ParamValue` from `src/bundle/core.rs`. -/
inductive ParamValue where
  | Value : String → ParamValue
  | LastTransaction : ParamValue
  | Transaction : Nat → ParamValue
  | ValueArray : List ParamValue → ParamValue

/-- `Protocol` from `src/metadata/protocols.rs`. -/
structure Protocol where
  slug : String
  url : String

/-- `ENSO_PROTOCOL` from `src/metadata/protocols.rs`. -/
def ENSO_PROTOCOL : Protocol :=
  { slug := "enso", url := "https://api.enso.finance" }

/-- `Action` from `src/bundle/actions.rs`: name plus ordered
(parameter name, description) pairs. -/
structure Action where
  action : String
  inputs : List (String × String)

/-- `ACTION_CALL` from `src/bundle/actions.rs`: the built-in direct-call schema. -/
def ACTION_CALL : Action :=
  { action := "call",
    inputs := [("address", ""), ("method", ""), ("abi", ""), ("args", "")] }

/-- `Transaction` from `src/bundle/core.rs`. -/
structure Transaction where
  protocol : Protocol
  action : Action
  args : List ParamValue

/-- `Bundle` from `src/bundle/core.rs`. -/
structure Bundle where
  chain_id : Nat
  transactions : List Transaction

/-- `output_of_call_at` inside `Bundle::to_json`. -/
def output_of_call_at (tx : Nat) : JValue :=
  JValue.obj (btreeInsert "useOutputOfCallAt" (JValue.num tx) [])

mutual

/-- `param_value_to_json` inside `Bundle::to_json`: resolves one argument
given the index `current_tx` of the enclosing transaction. -/
def param_value_to_json : ParamValue → Nat → JValue
  | ParamValue.Value v, _ => JValue.str v
  | ParamValue.LastTransaction, current_tx =>
      if current_tx > 0 then output_of_call_at (current_tx - 1)
      else JValue.str "0"
  | ParamValue.Transaction t, _ => output_of_call_at t
  | ParamValue.ValueArray values, current_tx =>
      JValue.arr (param_values_to_json values current_tx)

/-- The `for value in values` loop of the `ValueArray` arm. -/
def param_values_to_json : List ParamValue → Nat → List JValue
  | [], _ => []
  | v :: rest, current_tx =>
      param_value_to_json v current_tx :: param_values_to_json rest current_tx

end

/-- The `args` map of one transaction record: the zip of the schema's
inputs with the supplied args, each name bound to the resolved value, in
order. -/
def argsObject (t : Transaction) (current_tx : Nat) : List (String × JValue) :=
  insertAll []
    ((t.action.inputs.zip t.args).map
      (fun p => (p.1.1, param_value_to_json p.2 current_tx)))

/-- One record of the serialized bundle: `protocol`, `action` and `args`
inserted into a fresh map, as in the body of the `for` loop of
`Bundle::to_json`. -/
def tx_to_json (current_tx : Nat) (t : Transaction) : JValue :=
  JValue.obj
    (btreeInsert "args" (JValue.obj (argsObject t current_tx))
      (btreeInsert "action" (JValue.str t.action.action)
        (btreeInsert "protocol" (JValue.str t.protocol.slug) [])))

/-- The `for (current_tx, transaction) in ...enumerate()` loop of
`Bundle::to_json`, with `current_tx` the running index. -/
def bundle_records : List Transaction → Nat → List JValue
  | [], _ => []
  | t :: rest, current_tx =>
      tx_to_json current_tx t :: bundle_records rest (current_tx + 1)

/-- `Bundle::to_json` up to the final string rendering. -/
def to_json (b : Bundle) : JValue :=
  JValue.arr (bundle_records b.transactions 0)

/-! The paginated tokens stream of `src/metadata/tokens.rs`.

The in-flight `reqwest` futures are modelled by what identifies them for
the state machine: the server future by the page number of the request it
carries, the decode future by a unit.  What a pending future resolves to
when polled is supplied by the environment `Env` of one `poll_next` call.
The `anyhow` error messages become the two-element `FetchError`. -/

/-- `Token` from `src/metadata/tokens.rs` (the decoded `data[]` entries). -/
structure Token where
  chain_id : Nat
  address : String
  kind : String
  protocol_slug : String
  underlying_tokens : List String
  primary_address : String

/-- `Meta` from `src/metadata/tokens.rs`. -/
structure Meta where
  total : Nat
  last_page : Nat
  current_page : Nat
  per_page : Nat
  prev : Option Nat
  next : Option Nat

/-- `Tokens` from `src/metadata/tokens.rs`: one decoded page. -/
structure Tokens where
  meta : Meta
  data : List Token

/-- The two `anyhow!` errors produced by the stream. -/
inductive FetchError where
  | couldntGetTokens
  | couldntParseResult

/-- `StreamStates`: `PollingServer` carries the page number of the
in-flight request instead of the opaque future, `PollingParsing` a unit
for the in-flight decode. -/
inductive StreamStates where
  | Checking
  | PollingServer : Option Nat → StreamStates
  | PollingParsing : Option Unit → StreamStates

/-- The mutable fields of `PaginatedTokensStream`; `client`, `url`, `auth`
and `params` are opaque transport configuration the state machine never
reads. -/
structure PaginatedTokensStream where
  page : Nat
  total_pages : Option Nat
  state : StreamStates

/-- Result of polling a future once. -/
inductive FutPoll (α : Type) where
  | pending
  | ready : α → FutPoll α

/-- What the two awaited futures resolve to during one `poll_next` call:
`server` is the transport outcome (`Ok(response)` / transport error),
`parse` the decode outcome (`Ok(tokens)` / decode error). -/
structure Env where
  server : FutPoll (Except Unit Unit)
  parse : FutPoll (Except Unit Tokens)

/-- `Poll<Option<Item>>`: `ready none` is end-of-sequence, `ready (some it)`
one produced item. -/
inductive PollResult where
  | pending
  | ready : Option (Except FetchError (List String)) → PollResult

/-- Everything one `poll_next` call produces: the state left behind, the
returned `Poll` value, and the page number of the HTTP request issued
during the call, if one was issued. -/
structure PollOutcome where
  final : PaginatedTokensStream
  result : PollResult
  requested : Option Nat

/-- The `if let StreamStates::PollingParsing` block (lines 97-118) followed
by the fall-through (lines 120-121) of `poll_next`. -/
def poll_block3 (s : PaginatedTokensStream) (env : Env) (req : Option Nat) : PollOutcome :=
  match s.state with
  | StreamStates.PollingParsing parsing =>
    match parsing with
    | none =>
        { final := { s with state := StreamStates.Checking },
          result := PollResult.ready none, requested := req }
    | some _ =>
      match env.parse with
      | FutPoll.pending => { final := s, result := PollResult.pending, requested := req }
      | FutPoll.ready (Except.ok tokens) =>
          { final := { s with
              page := s.page + 1,
              total_pages := some tokens.meta.last_page,
              state := StreamStates.Checking },
            result := PollResult.ready (some (Except.ok (tokens.data.map Token.address))),
            requested := req }
      | FutPoll.ready (Except.error _) =>
          { final := { s with state := StreamStates.Checking },
            result := PollResult.ready (some (Except.error FetchError.couldntParseResult)),
            requested := req }
  | _ =>
      { final := { s with state := StreamStates.Checking },
        result := PollResult.ready none, requested := req }

/-- The `if let StreamStates::PollingServer` block (lines 85-95) of
`poll_next`: on transport error the code returns the error item WITHOUT
resetting the state (the completed future stays in `PollingServer`). -/
def poll_block2 (s : PaginatedTokensStream) (env : Env) (req : Option Nat) : PollOutcome :=
  match s.state with
  | StreamStates.PollingServer server =>
    match server with
    | none => { final := s, result := PollResult.ready none, requested := req }
    | some _ =>
      match env.server with
      | FutPoll.pending => { final := s, result := PollResult.pending, requested := req }
      | FutPoll.ready (Except.error _) =>
          { final := s,
            result := PollResult.ready (some (Except.error FetchError.couldntGetTokens)),
            requested := req }
      | FutPoll.ready (Except.ok _) =>
          poll_block3 { s with state := StreamStates.PollingParsing (some ()) } env req
  | _ => poll_block3 s env req

/-- `PaginatedTokensStream::poll_next`: the `Checking` block (lines 68-83)
either terminates (total pages known and reached) or issues the request
for page `page + 1`, then control falls through the two polling blocks. -/
def poll_next (s : PaginatedTokensStream) (env : Env) : PollOutcome :=
  match s.state with
  | StreamStates.Checking =>
    match s.total_pages with
    | some total_pages =>
      if s.page ≥ total_pages then
        { final := s, result := PollResult.ready none, requested := none }
      else
        poll_block2 { s with state := StreamStates.PollingServer (some (s.page + 1)) }
          env (some (s.page + 1))
    | none =>
        poll_block2 { s with state := StreamStates.PollingServer (some (s.page + 1)) }
          env (some (s.page + 1))
  | _ => poll_block2 s env none

/-! Concrete sample data (mirroring the repository's own test fixtures)
used to instantiate the theorems below. -/

/-- The `route` schema used by the repository's `create_bundle` test. -/
def ACTION_ROUTE : Action :=
  { action := "route",
    inputs := [("amountIn", "Raw amount to sell"),
               ("slippage", "Amount of slippage"),
               ("tokenIn", "Address of token to sell"),
               ("tokenOut", "Address of token to buy")] }

/-- A transaction whose only argument is a `LastTransaction` reference. -/
def DEMO_LAST : Transaction :=
  { protocol := ENSO_PROTOCOL, action := ACTION_ROUTE,
    args := [ParamValue.LastTransaction] }

/-- A two-transaction bundle of `DEMO_LAST` transactions. -/
def DEMO_BUNDLE : Bundle :=
  { chain_id := 1, transactions := [DEMO_LAST, DEMO_LAST] }

/-- Two literal argument values against the four-parameter `route` schema. -/
def DEMO_TRUNC : Transaction :=
  { protocol := ENSO_PROTOCOL, action := ACTION_ROUTE,
    args := [ParamValue.Value "100000000000", ParamValue.Value "300"] }

/-- Five argument values against the four-parameter `call` schema. -/
def DEMO_SURPLUS : Transaction :=
  { protocol := ENSO_PROTOCOL, action := ACTION_CALL,
    args := [ParamValue.Value "a", ParamValue.Value "b", ParamValue.Value "c",
             ParamValue.Value "d", ParamValue.Value "e"] }

/-- A concrete decoded page used to instantiate the stream theorems. -/
def DEMO_TOKENS : Tokens :=
  { meta := { total := 2, last_page := 2, current_page := 1, per_page := 1,
              prev := none, next := some 2 },
    data := [{ chain_id := 10, address := "0xae7ab96520DE3A18E5e111B5EaAb095312D7fE84",
               kind := "baseToken", protocol_slug := "enso",
               underlying_tokens := [],
               primary_address := "0xae7ab96520DE3A18E5e111B5EaAb095312D7fE84" }] }

/-! Lemmas about the map model. -/

theorem jget_btreeInsert (k q : String) (v : JValue) (m : List (String × JValue)) :
    jget q (btreeInsert k v m) = if q = k then some v else jget q m := by
  induction m with
  | nil => simp [btreeInsert, jget]
  | cons hd tl ih =>
    obtain ⟨k₁, v₁⟩ := hd
    by_cases hlt : strLt k k₁ = true
    · simp [btreeInsert, hlt, jget]
    · by_cases heq : k = k₁
      · simp only [btreeInsert, if_neg hlt, if_pos heq, jget]
        subst heq
        by_cases hq : q = k <;> simp [hq]
      · simp only [btreeInsert, if_neg hlt, if_neg heq, jget, ih]
        by_cases hq : q = k₁
        · subst hq
          have hqk : ¬ q = k := fun h => heq (h.symm)
          simp [hqk]
        · simp [hq]

theorem mem_keys_btreeInsert (k q : String) (v : JValue) (m : List (String × JValue)) :
    q ∈ (btreeInsert k v m).map Prod.fst ↔ q = k ∨ q ∈ m.map Prod.fst := by
  induction m with
  | nil => simp [btreeInsert]
  | cons hd tl ih =>
    obtain ⟨k₁, v₁⟩ := hd
    by_cases hlt : strLt k k₁ = true
    · simp only [btreeInsert, if_pos hlt, List.map_cons, List.mem_cons]
    · by_cases heq : k = k₁
      · simp only [btreeInsert, if_neg hlt, if_pos heq, List.map_cons, List.mem_cons]
        subst heq
        tauto
      · simp only [btreeInsert, if_neg hlt, if_neg heq, List.map_cons, List.mem_cons, ih]
        tauto

theorem length_btreeInsert_of_not_mem (k : String) (v : JValue)
    (m : List (String × JValue)) (h : k ∉ m.map Prod.fst) :
    (btreeInsert k v m).length = m.length + 1 := by
  induction m with
  | nil => simp [btreeInsert]
  | cons hd tl ih =>
    obtain ⟨k₁, v₁⟩ := hd
    simp only [List.map_cons, List.mem_cons, not_or] at h
    by_cases hlt : strLt k k₁ = true
    · simp [btreeInsert, hlt]
    · simp only [btreeInsert, if_neg hlt, if_neg h.1, List.length_cons, ih h.2]

theorem jget_insertAll_of_not_mem (q : String) (pairs m : List (String × JValue))
    (h : q ∉ pairs.map Prod.fst) :
    jget q (insertAll m pairs) = jget q m := by
  induction pairs generalizing m with
  | nil => rfl
  | cons hd tl ih =>
    obtain ⟨k, v⟩ := hd
    simp only [List.map_cons, List.mem_cons, not_or] at h
    rw [insertAll, ih _ h.2, jget_btreeInsert, if_neg h.1]

theorem jget_insertAll_mem (q : String) (v : JValue) (pairs m : List (String × JValue))
    (hnd : (pairs.map Prod.fst).Nodup) (hmem : (q, v) ∈ pairs) :
    jget q (insertAll m pairs) = some v := by
  induction pairs generalizing m with
  | nil => cases hmem
  | cons hd tl ih =>
    obtain ⟨k, w⟩ := hd
    simp only [List.map_cons, List.nodup_cons] at hnd
    rcases List.mem_cons.mp hmem with heq | hmem'
    · have hq : q = k := congrArg Prod.fst heq
      have hv : v = w := congrArg Prod.snd heq
      subst hq; subst hv
      rw [insertAll, jget_insertAll_of_not_mem _ _ _ hnd.1, jget_btreeInsert, if_pos rfl]
    · exact ih _ hnd.2 hmem'

theorem mem_keys_insertAll (q : String) (pairs m : List (String × JValue)) :
    q ∈ (insertAll m pairs).map Prod.fst ↔
      q ∈ pairs.map Prod.fst ∨ q ∈ m.map Prod.fst := by
  induction pairs generalizing m with
  | nil => simp [insertAll]
  | cons hd tl ih =>
    obtain ⟨k, v⟩ := hd
    rw [insertAll, ih]
    simp only [mem_keys_btreeInsert, List.map_cons, List.mem_cons]
    tauto

theorem length_insertAll (pairs m : List (String × JValue))
    (hnd : (pairs.map Prod.fst).Nodup)
    (hdis : ∀ q ∈ pairs.map Prod.fst, q ∉ m.map Prod.fst) :
    (insertAll m pairs).length = m.length + pairs.length := by
  induction pairs generalizing m with
  | nil => simp [insertAll]
  | cons hd tl ih =>
    obtain ⟨k, v⟩ := hd
    simp only [List.map_cons, List.nodup_cons] at hnd
    rw [insertAll, ih _ hnd.2]
    · rw [length_btreeInsert_of_not_mem _ _ _ (hdis k (by simp))]
      simp only [List.length_cons]
      omega
    · intro q hq
      rw [mem_keys_btreeInsert]
      push_neg
      refine ⟨fun hqk => hnd.1 (hqk ▸ hq), hdis q (by simp [hq])⟩

/-! Lemmas about the serializer. -/

theorem keys_zip_map (l₁ : List (String × String)) (l₂ : List ParamValue) (i : Nat) :
    ((l₁.zip l₂).map (fun p => (p.1.1, param_value_to_json p.2 i))).map Prod.fst
      = (l₁.map Prod.fst).take l₂.length := by
  induction l₁ generalizing l₂ with
  | nil => simp
  | cons hd tl ih =>
    cases l₂ with
    | nil => simp
    | cons v vs => simp [ih]

theorem get?_zip {α β : Type} (l₁ : List α) (l₂ : List β) (p : Nat) (a : α) (b : β)
    (h₁ : l₁.get? p = some a) (h₂ : l₂.get? p = some b) :
    (l₁.zip l₂).get? p = some (a, b) := by
  induction l₁ generalizing l₂ p with
  | nil => simp at h₁
  | cons hd tl ih =>
    cases l₂ with
    | nil => simp at h₂
    | cons hd₂ tl₂ =>
      cases p with
      | zero =>
        simp only [List.get?] at h₁ h₂
        injection h₁ with e₁
        injection h₂ with e₂
        subst e₁; subst e₂
        rfl
      | succ n =>
        simp only [List.get?] at h₁ h₂ ⊢
        exact ih tl₂ n h₁ h₂

theorem jget_argsObject (t : Transaction) (i p : Nat) (name desc : String) (pv : ParamValue)
    (hnd : (t.action.inputs.map Prod.fst).Nodup)
    (hname : t.action.inputs.get? p = some (name, desc))
    (harg : t.args.get? p = some pv) :
    jget name (argsObject t i) = some (param_value_to_json pv i) := by
  have hz := get?_zip _ _ _ _ _ hname harg
  have hmem : ((name, desc), pv) ∈ t.action.inputs.zip t.args := List.get?_mem hz
  have hmem' : (name, param_value_to_json pv i) ∈
      (t.action.inputs.zip t.args).map (fun p => (p.1.1, param_value_to_json p.2 i)) :=
    List.mem_map_of_mem _ hmem
  apply jget_insertAll_mem
  · rw [keys_zip_map]
    exact hnd.sublist (List.take_sublist _ _)
  · exact hmem'

theorem argsObject_length (t : Transaction) (i : Nat)
    (hnd : (t.action.inputs.map Prod.fst).Nodup) :
    (argsObject t i).length = min t.action.inputs.length t.args.length := by
  rw [argsObject, length_insertAll]
  · simp [List.length_zip]
  · rw [keys_zip_map]
    exact hnd.sublist (List.take_sublist _ _)
  · simp

theorem argsObject_keys (t : Transaction) (i : Nat) (q : String) :
    q ∈ (argsObject t i).map Prod.fst ↔
      q ∈ (t.action.inputs.map Prod.fst).take t.args.length := by
  rw [argsObject, mem_keys_insertAll, keys_zip_map]
  simp

theorem argsObject_nil_inputs (t : Transaction) (i : Nat)
    (h : t.action.inputs = []) : argsObject t i = [] := by
  simp [argsObject, h, insertAll]

theorem objLookup_tx_to_json_args (i : Nat) (t : Transaction) :
    objLookup "args" (tx_to_json i t) = some (JValue.obj (argsObject t i)) := rfl

theorem objLookup_tx_to_json_protocol (i : Nat) (t : Transaction) :
    objLookup "protocol" (tx_to_json i t) = some (JValue.str t.protocol.slug) := rfl

theorem objLookup_tx_to_json_action (i : Nat) (t : Transaction) :
    objLookup "action" (tx_to_json i t) = some (JValue.str t.action.action) := rfl

theorem bundle_records_length (txs : List Transaction) (n : Nat) :
    (bundle_records txs n).length = txs.length := by
  induction txs generalizing n with
  | nil => rfl
  | cons hd tl ih => simp [bundle_records, ih]

theorem bundle_records_get? (txs : List Transaction) (n i : Nat) :
    (bundle_records txs n).get? i = (txs.get? i).map (fun t => tx_to_json (n + i) t) := by
  induction txs generalizing n i with
  | nil => simp [bundle_records]
  | cons hd tl ih =>
    cases i with
    | zero => simp [bundle_records]
    | succ j =>
      simp only [bundle_records, List.get?, ih (n + 1) j]
      have : n + 1 + j = n + (j + 1) := by omega
      rw [this]

theorem param_values_to_json_eq_map (values : List ParamValue) (i : Nat) :
    param_values_to_json values i = values.map (fun v => param_value_to_json v i) := by
  induction values with
  | nil => rfl
  | cons hd tl ih => simp [param_values_to_json, ih]

/-! The claims about the bundle serializer. -/

/-- C1: for every bundle and every transaction at index `i`, a
`PreviousOutput` (`LastTransaction`) argument of that transaction is
serialized to the output-reference object for index `i - 1` when `i > 0`
and to the literal string "0" when `i = 0`; the serializer is total, so
neither case produces an error. -/
theorem C1_previous_output_resolution (b : Bundle) (i p : Nat) (t : Transaction)
    (name desc : String)
    (ht : b.transactions.get? i = some t)
    (hnd : (t.action.inputs.map Prod.fst).Nodup)
    (hname : t.action.inputs.get? p = some (name, desc))
    (harg : t.args.get? p = some ParamValue.LastTransaction) :
    ∃ recs rec, to_json b = JValue.arr recs ∧ recs.get? i = some rec ∧
      objLookup "args" rec = some (JValue.obj (argsObject t i)) ∧
      jget name (argsObject t i) =
        some (if 0 < i then output_of_call_at (i - 1) else JValue.str "0") := by
  refine ⟨bundle_records b.transactions 0, tx_to_json i t, rfl, ?_, ?_, ?_⟩
  · rw [bundle_records_get?, ht]
    simp
  · exact objLookup_tx_to_json_args i t
  · rw [jget_argsObject t i p name desc _ hnd hname harg]
    simp [param_value_to_json]

/-- C1 witness: in the concrete two-transaction bundle `DEMO_BUNDLE`, the
`LastTransaction` argument of transaction 1 resolves to the
output-reference to index 0. -/
theorem C1_witness :
    ∃ recs rec, to_json DEMO_BUNDLE = JValue.arr recs ∧ recs.get? 1 = some rec ∧
      objLookup "args" rec = some (JValue.obj (argsObject DEMO_LAST 1)) ∧
      jget "amountIn" (argsObject DEMO_LAST 1) =
        some (if 0 < 1 then output_of_call_at (1 - 1) else JValue.str "0") :=
  C1_previous_output_resolution DEMO_BUNDLE 1 0 DEMO_LAST "amountIn"
    "Raw amount to sell" rfl (by decide) rfl rfl

/-- C5: serializing a bundle of `k` transactions yields an array of
exactly `k` records, in insertion order; each record carries the protocol
slug under "protocol", the action name under "action", and under "args"
the mapping from parameter names (bound by position) to resolved values. -/
theorem C5_record_shape (b : Bundle) :
    ∃ recs : List JValue, to_json b = JValue.arr recs ∧
      recs.length = b.transactions.length ∧
      ∀ i t, b.transactions.get? i = some t →
        recs.get? i = some (tx_to_json i t) ∧
        objLookup "protocol" (tx_to_json i t) = some (JValue.str t.protocol.slug) ∧
        objLookup "action" (tx_to_json i t) = some (JValue.str t.action.action) ∧
        objLookup "args" (tx_to_json i t) = some (JValue.obj (argsObject t i)) ∧
        ((t.action.inputs.map Prod.fst).Nodup →
          ∀ p name desc pv, t.action.inputs.get? p = some (name, desc) →
            t.args.get? p = some pv →
            jget name (argsObject t i) = some (param_value_to_json pv i)) := by
  refine ⟨bundle_records b.transactions 0, rfl, bundle_records_length _ _, ?_⟩
  intro i t ht
  refine ⟨?_, objLookup_tx_to_json_protocol i t, objLookup_tx_to_json_action i t,
    objLookup_tx_to_json_args i t,
    fun hnd p name desc pv h₁ h₂ => jget_argsObject t i p name desc pv hnd h₁ h₂⟩
  rw [bundle_records_get?, ht]
  simp

/-- C5 witness: the record shape instantiated at the concrete bundle
`DEMO_BUNDLE`. -/
theorem C5_witness :
    ∃ recs : List JValue, to_json DEMO_BUNDLE = JValue.arr recs ∧
      recs.length = DEMO_BUNDLE.transactions.length ∧
      ∀ i t, DEMO_BUNDLE.transactions.get? i = some t →
        recs.get? i = some (tx_to_json i t) ∧
        objLookup "protocol" (tx_to_json i t) = some (JValue.str t.protocol.slug) ∧
        objLookup "action" (tx_to_json i t) = some (JValue.str t.action.action) ∧
        objLookup "args" (tx_to_json i t) = some (JValue.obj (argsObject t i)) ∧
        ((t.action.inputs.map Prod.fst).Nodup →
          ∀ p name desc pv, t.action.inputs.get? p = some (name, desc) →
            t.args.get? p = some pv →
            jget name (argsObject t i) = some (param_value_to_json pv i)) :=
  C5_record_shape DEMO_BUNDLE

/-- C6: when fewer argument values are supplied than schema parameters,
the serialized `args` mapping holds exactly the overlapping prefix of
parameter names — one entry per supplied value, no error; a zero-parameter
schema serializes its `args` as the empty mapping whatever the supplied
values. -/
theorem C6_truncation (t : Transaction) (i : Nat)
    (hnd : (t.action.inputs.map Prod.fst).Nodup)
    (hle : t.args.length ≤ t.action.inputs.length) :
    (argsObject t i).length = t.args.length ∧
    (∀ q, q ∈ (argsObject t i).map Prod.fst ↔
       q ∈ (t.action.inputs.map Prod.fst).take t.args.length) ∧
    (∀ t' : Transaction, ∀ j, t'.action.inputs = [] → argsObject t' j = []) := by
  refine ⟨?_, fun q => argsObject_keys t i q, fun t' j h => argsObject_nil_inputs t' j h⟩
  rw [argsObject_length t i hnd]
  omega

/-- C6 witness: two values against the four-parameter `route` schema
serialize to exactly the first two parameter names. -/
theorem C6_witness :
    (argsObject DEMO_TRUNC 0).length = DEMO_TRUNC.args.length ∧
    (∀ q, q ∈ (argsObject DEMO_TRUNC 0).map Prod.fst ↔
       q ∈ (DEMO_TRUNC.action.inputs.map Prod.fst).take DEMO_TRUNC.args.length) ∧
    (∀ t' : Transaction, ∀ j, t'.action.inputs = [] → argsObject t' j = []) :=
  C6_truncation DEMO_TRUNC 0 (by decide) (by decide)

/-- C7: an `IndexedOutput(n)` (`Transaction n`) argument resolves to the
output-reference object for index `n` unconditionally, for every `n` and
every enclosing transaction index — the resolver takes no bundle and hence
performs no bounds check, so out-of-range and forward references pass
through verbatim without error. -/
theorem C7_indexed_output_unchecked (n i : Nat) :
    param_value_to_json (ParamValue.Transaction n) i = output_of_call_at n := by
  simp [param_value_to_json]

/-- C8: a `List` argument resolves to the array of its items, each
resolved recursively with the same enclosing transaction index, at every
nesting depth; a nested `PreviousOutput` on transaction 0 still resolves
to the literal "0", and on transaction `i > 0` to the reference to
`i - 1`. -/
theorem C8_list_resolution (items : List ParamValue) (i : Nat) :
    param_value_to_json (ParamValue.ValueArray items) i =
      JValue.arr (items.map (fun v => param_value_to_json v i)) ∧
    (0 < i → param_value_to_json (ParamValue.ValueArray [ParamValue.LastTransaction]) i =
      JValue.arr [output_of_call_at (i - 1)]) ∧
    param_value_to_json
        (ParamValue.ValueArray [ParamValue.ValueArray [ParamValue.LastTransaction]]) 0 =
      JValue.arr [JValue.arr [JValue.str "0"]] := by
  refine ⟨?_, ?_, ?_⟩
  · simp [param_value_to_json, param_values_to_json_eq_map]
  · intro hi
    simp [param_value_to_json, param_values_to_json, hi]
  · simp [param_value_to_json, param_values_to_json]

/-- C8 witness: a `LastTransaction` nested in a list on transaction 1
resolves to the reference to index 0. -/
theorem C8_witness :
    param_value_to_json (ParamValue.ValueArray [ParamValue.LastTransaction]) 1 =
      JValue.arr [output_of_call_at (1 - 1)] :=
  (C8_list_resolution [ParamValue.LastTransaction] 1).2.1 (by decide)

/-- C9: serialization is deterministic and reads nothing but the
transaction sequence: two bundles with the same transactions (whatever
their other state, e.g. `chain_id`) serialize identically, and the result
is the pure per-index record list. -/
theorem C9_serialize_deterministic (b b' : Bundle)
    (h : b.transactions = b'.transactions) :
    to_json b = to_json b' ∧
    to_json b = JValue.arr (bundle_records b.transactions 0) := by
  constructor
  · rw [to_json, to_json, h]
  · rfl

/-- C9 witness: the same transaction list under two different chain ids
serializes identically. -/
theorem C9_witness :
    to_json { chain_id := 1, transactions := [DEMO_LAST] } =
      to_json { chain_id := 2, transactions := [DEMO_LAST] } ∧
    to_json { chain_id := 1, transactions := [DEMO_LAST] } =
      JValue.arr (bundle_records [DEMO_LAST] 0) :=
  C9_serialize_deterministic
    { chain_id := 1, transactions := [DEMO_LAST] }
    { chain_id := 2, transactions := [DEMO_LAST] } rfl

/-- C10: when more argument values are supplied than schema parameters,
the surplus is silently ignored: the `args` mapping has exactly
`min(#parameters, #args)` entries, and its keys are exactly the zipped
prefix of parameter names. -/
theorem C10_surplus_args_ignored (t : Transaction) (i : Nat)
    (hnd : (t.action.inputs.map Prod.fst).Nodup) :
    (argsObject t i).length = min t.action.inputs.length t.args.length ∧
    (∀ q, q ∈ (argsObject t i).map Prod.fst ↔
       q ∈ (t.action.inputs.map Prod.fst).take t.args.length) :=
  ⟨argsObject_length t i hnd, fun q => argsObject_keys t i q⟩

/-- C10 witness: five values against the four-parameter `call` schema
serialize to exactly four entries. -/
theorem C10_witness :
    (argsObject DEMO_SURPLUS 0).length =
      min DEMO_SURPLUS.action.inputs.length DEMO_SURPLUS.args.length ∧
    (∀ q, q ∈ (argsObject DEMO_SURPLUS 0).map Prod.fst ↔
       q ∈ (DEMO_SURPLUS.action.inputs.map Prod.fst).take DEMO_SURPLUS.args.length) :=
  C10_surplus_args_ignored DEMO_SURPLUS 0 (by decide)

/-! Lemmas about the paginated stream. -/

theorem poll_next_checking_none (page : Nat) (env : Env) :
    poll_next ⟨page, none, StreamStates.Checking⟩ env =
      poll_block2 ⟨page, none, StreamStates.PollingServer (some (page + 1))⟩ env
        (some (page + 1)) := rfl

theorem poll_next_checking_some_lt (page tp : Nat) (env : Env) (hlt : page < tp) :
    poll_next ⟨page, some tp, StreamStates.Checking⟩ env =
      poll_block2 ⟨page, some tp, StreamStates.PollingServer (some (page + 1))⟩ env
        (some (page + 1)) := by
  simp [poll_next, Nat.not_le.mpr hlt]

theorem poll_next_checking_some_ge (page tp : Nat) (env : Env) (hge : tp ≤ page) :
    poll_next ⟨page, some tp, StreamStates.Checking⟩ env =
      ⟨⟨page, some tp, StreamStates.Checking⟩, PollResult.ready none, none⟩ := by
  simp [poll_next, hge]

theorem poll_block2_not_none (page : Nat) (tps : Option Nat) (r : Nat) (env : Env)
    (req : Option Nat) :
    (poll_block2 ⟨page, tps, StreamStates.PollingServer (some r)⟩ env req).result ≠
        PollResult.ready none ∧
    (poll_block2 ⟨page, tps, StreamStates.PollingServer (some r)⟩ env req).requested = req := by
  obtain ⟨server, parse⟩ := env
  cases server with
  | pending => simp [poll_block2]
  | ready res =>
    cases res with
    | error e => simp [poll_block2]
    | ok u =>
      cases parse with
      | pending => simp [poll_block2, poll_block3]
      | ready pres =>
        cases pres with
        | ok tokens => simp [poll_block2, poll_block3]
        | error e => simp [poll_block2, poll_block3]

theorem poll_block2_transport_error (page : Nat) (tps : Option Nat) (r : Nat)
    (req : Option Nat) (env : Env)
    (hs : env.server = FutPoll.ready (Except.error ())) :
    poll_block2 ⟨page, tps, StreamStates.PollingServer (some r)⟩ env req =
      ⟨⟨page, tps, StreamStates.PollingServer (some r)⟩,
        PollResult.ready (some (Except.error FetchError.couldntGetTokens)), req⟩ := by
  obtain ⟨server, parse⟩ := env
  dsimp only at hs
  subst hs
  rfl

theorem poll_block2_success (page : Nat) (tps : Option Nat) (r : Nat)
    (req : Option Nat) (env : Env) (tokens : Tokens)
    (hs : env.server = FutPoll.ready (Except.ok ()))
    (hp : env.parse = FutPoll.ready (Except.ok tokens)) :
    poll_block2 ⟨page, tps, StreamStates.PollingServer (some r)⟩ env req =
      ⟨⟨page + 1, some tokens.meta.last_page, StreamStates.Checking⟩,
        PollResult.ready (some (Except.ok (tokens.data.map Token.address))), req⟩ := by
  obtain ⟨server, parse⟩ := env
  dsimp only at hs hp
  subst hs
  subst hp
  rfl

theorem poll_block2_decode_error (page : Nat) (tps : Option Nat) (r : Nat)
    (req : Option Nat) (env : Env)
    (hs : env.server = FutPoll.ready (Except.ok ()))
    (hp : env.parse = FutPoll.ready (Except.error ())) :
    poll_block2 ⟨page, tps, StreamStates.PollingServer (some r)⟩ env req =
      ⟨⟨page, tps, StreamStates.Checking⟩,
        PollResult.ready (some (Except.error FetchError.couldntParseResult)), req⟩ := by
  obtain ⟨server, parse⟩ := env
  dsimp only at hs hp
  subst hs
  subst hp
  rfl

/-! The claims about the paginated stream. -/

/-- C2: the claim says a transport failure yields one error item and
returns the engine to Idle (`Checking`) so that the next pull issues a
request for the same page.  The code does yield exactly one error item,
but the early return on the transport-error arm of `poll_next` skips the
state reset: the engine stays in `PollingServer` holding the already
completed future, and the immediately following pull issues no request at
all (it re-polls the spent future).  Evaluated here at a fresh stream
whose first transport poll fails. -/
theorem C2_transport_failure_keeps_state :
    (poll_next ⟨0, none, StreamStates.Checking⟩
        ⟨FutPoll.ready (Except.error ()), FutPoll.pending⟩).result =
      PollResult.ready (some (Except.error FetchError.couldntGetTokens)) ∧
    (poll_next ⟨0, none, StreamStates.Checking⟩
        ⟨FutPoll.ready (Except.error ()), FutPoll.pending⟩).final.state =
      StreamStates.PollingServer (some 1) ∧
    ∀ env' : Env,
      (poll_next (poll_next ⟨0, none, StreamStates.Checking⟩
          ⟨FutPoll.ready (Except.error ()), FutPoll.pending⟩).final env').requested = none := by
  refine ⟨rfl, rfl, ?_⟩
  intro env'
  obtain ⟨server, parse⟩ := env'
  cases server with
  | pending => rfl
  | ready res =>
    cases res with
    | error e => rfl
    | ok u =>
      cases parse with
      | pending => rfl
      | ready pres =>
        cases pres with
        | ok tokens => rfl
        | error e => rfl

/-- C3: a decode failure on a pull started from `Checking` yields exactly
one error item, leaves `page` and `total_pages` unchanged, resets the
state to `Checking`, and the following pull issues a request for the very
same page `page + 1` again — the sequence is not terminated. -/
theorem C3_decode_failure_nonfatal (s : PaginatedTokensStream) (env env' : Env)
    (h : s.state = StreamStates.Checking)
    (hnt : ∀ tp, s.total_pages = some tp → s.page < tp)
    (hs : env.server = FutPoll.ready (Except.ok ()))
    (hp : env.parse = FutPoll.ready (Except.error ())) :
    (poll_next s env).result =
      PollResult.ready (some (Except.error FetchError.couldntParseResult)) ∧
    (poll_next s env).final.page = s.page ∧
    (poll_next s env).final.total_pages = s.total_pages ∧
    (poll_next s env).final.state = StreamStates.Checking ∧
    (poll_next (poll_next s env).final env').requested = some (s.page + 1) := by
  obtain ⟨page, tps, state⟩ := s
  dsimp only at h hnt ⊢
  subst h
  cases tps with
  | none =>
    rw [poll_next_checking_none, poll_block2_decode_error _ _ _ _ _ hs hp]
    refine ⟨rfl, rfl, rfl, rfl, ?_⟩
    rw [poll_next_checking_none]
    exact (poll_block2_not_none _ _ _ _ _).2
  | some tp =>
    have hlt : page < tp := hnt tp rfl
    rw [poll_next_checking_some_lt _ _ _ hlt, poll_block2_decode_error _ _ _ _ _ hs hp]
    refine ⟨rfl, rfl, rfl, rfl, ?_⟩
    rw [poll_next_checking_some_lt _ _ _ hlt]
    exact (poll_block2_not_none _ _ _ _ _).2

/-- C3 witness: decode failure while pulling page 2 of a stream that has
already fetched page 1 (of 2): one error item, cursor still 1, and the
next pull requests page 2 again. -/
theorem C3_witness :
    (poll_next ⟨1, some 2, StreamStates.Checking⟩
        ⟨FutPoll.ready (Except.ok ()), FutPoll.ready (Except.error ())⟩).result =
      PollResult.ready (some (Except.error FetchError.couldntParseResult)) ∧
    (poll_next ⟨1, some 2, StreamStates.Checking⟩
        ⟨FutPoll.ready (Except.ok ()), FutPoll.ready (Except.error ())⟩).final.page = 1 ∧
    (poll_next ⟨1, some 2, StreamStates.Checking⟩
        ⟨FutPoll.ready (Except.ok ()), FutPoll.ready (Except.error ())⟩).final.total_pages =
      some 2 ∧
    (poll_next ⟨1, some 2, StreamStates.Checking⟩
        ⟨FutPoll.ready (Except.ok ()), FutPoll.ready (Except.error ())⟩).final.state =
      StreamStates.Checking ∧
    (poll_next (poll_next ⟨1, some 2, StreamStates.Checking⟩
        ⟨FutPoll.ready (Except.ok ()), FutPoll.ready (Except.error ())⟩).final
        ⟨FutPoll.pending, FutPoll.pending⟩).requested = some 2 :=
  C3_decode_failure_nonfatal ⟨1, some 2, StreamStates.Checking⟩
    ⟨FutPoll.ready (Except.ok ()), FutPoll.ready (Except.error ())⟩
    ⟨FutPoll.pending, FutPoll.pending⟩ rfl
    (fun tp htp => by injection htp with e; subst e; decide) rfl rfl

/-- C4: a pull from `Checking` produces end-of-sequence exactly when the
total page count is known and reached; otherwise the pull issues a request
for page `page + 1`, and when transport and decode both succeed the pull
stores the page's reported `lastPage` in `total_pages`, increments `page`,
returns to `Checking`, and yields the page's `data[].address` entries as
one item. -/
theorem C4_idle_pull (s : PaginatedTokensStream) (env : Env)
    (h : s.state = StreamStates.Checking) :
    ((poll_next s env).result = PollResult.ready none ↔
       ∃ tp, s.total_pages = some tp ∧ tp ≤ s.page) ∧
    ((∀ tp, s.total_pages = some tp → s.page < tp) →
       (poll_next s env).requested = some (s.page + 1)) ∧
    (∀ tokens, (∀ tp, s.total_pages = some tp → s.page < tp) →
       env.server = FutPoll.ready (Except.ok ()) →
       env.parse = FutPoll.ready (Except.ok tokens) →
       (poll_next s env).final.page = s.page + 1 ∧
       (poll_next s env).final.total_pages = some tokens.meta.last_page ∧
       (poll_next s env).final.state = StreamStates.Checking ∧
       (poll_next s env).result =
         PollResult.ready (some (Except.ok (tokens.data.map Token.address)))) := by
  obtain ⟨page, tps, state⟩ := s
  dsimp only at h ⊢
  subst h
  cases tps with
  | none =>
    rw [poll_next_checking_none]
    refine ⟨?_, fun _ => (poll_block2_not_none _ _ _ _ _).2, ?_⟩
    · constructor
      · intro hres
        exact absurd hres (poll_block2_not_none _ _ _ _ _).1
      · rintro ⟨tp, htp, _⟩
        exact Option.noConfusion htp
    · intro tokens _ hs hp
      rw [poll_block2_success _ _ _ _ _ _ hs hp]
      exact ⟨rfl, rfl, rfl, rfl⟩
  | some tp =>
    by_cases hge : tp ≤ page
    · rw [poll_next_checking_some_ge _ _ _ hge]
      refine ⟨?_, ?_, ?_⟩
      · exact ⟨fun _ => ⟨tp, rfl, hge⟩, fun _ => rfl⟩
      · intro hnt
        exact absurd hge (Nat.not_le.mpr (hnt tp rfl))
      · intro tokens hnt _ _
        exact absurd hge (Nat.not_le.mpr (hnt tp rfl))
    · have hlt : page < tp := Nat.not_le.mp hge
      rw [poll_next_checking_some_lt _ _ _ hlt]
      refine ⟨?_, fun _ => (poll_block2_not_none _ _ _ _ _).2, ?_⟩
      · constructor
        · intro hres
          exact absurd hres (poll_block2_not_none _ _ _ _ _).1
        · rintro ⟨tp', htp, hge'⟩
          injection htp with e
          subst e
          exact absurd hge' (Nat.not_le.mpr hlt)
      · intro tokens _ hs hp
        rw [poll_block2_success _ _ _ _ _ _ hs hp]
        exact ⟨rfl, rfl, rfl, rfl⟩

/-- C4 witness: the idle-pull behaviour at a fresh stream (no total page
count yet) whose first page decodes to `DEMO_TOKENS`. -/
theorem C4_witness :
    ((poll_next ⟨0, none, StreamStates.Checking⟩
        ⟨FutPoll.ready (Except.ok ()), FutPoll.ready (Except.ok DEMO_TOKENS)⟩).result =
          PollResult.ready none ↔
       ∃ tp, (none : Option Nat) = some tp ∧ tp ≤ 0) ∧
    ((∀ tp, (none : Option Nat) = some tp → 0 < tp) →
       (poll_next ⟨0, none, StreamStates.Checking⟩
        ⟨FutPoll.ready (Except.ok ()), FutPoll.ready (Except.ok DEMO_TOKENS)⟩).requested =
         some 1) ∧
    (∀ tokens, (∀ tp, (none : Option Nat) = some tp → 0 < tp) →
       (⟨FutPoll.ready (Except.ok ()), FutPoll.ready (Except.ok DEMO_TOKENS)⟩ : Env).server =
         FutPoll.ready (Except.ok ()) →
       (⟨FutPoll.ready (Except.ok ()), FutPoll.ready (Except.ok DEMO_TOKENS)⟩ : Env).parse =
         FutPoll.ready (Except.ok tokens) →
       (poll_next ⟨0, none, StreamStates.Checking⟩
        ⟨FutPoll.ready (Except.ok ()), FutPoll.ready (Except.ok DEMO_TOKENS)⟩).final.page = 1 ∧
       (poll_next ⟨0, none, StreamStates.Checking⟩
        ⟨FutPoll.ready (Except.ok ()), FutPoll.ready (Except.ok DEMO_TOKENS)⟩).final.total_pages =
         some tokens.meta.last_page ∧
       (poll_next ⟨0, none, StreamStates.Checking⟩
        ⟨FutPoll.ready (Except.ok ()), FutPoll.ready (Except.ok DEMO_TOKENS)⟩).final.state =
         StreamStates.Checking ∧
       (poll_next ⟨0, none, StreamStates.Checking⟩
        ⟨FutPoll.ready (Except.ok ()), FutPoll.ready (Except.ok DEMO_TOKENS)⟩).result =
         PollResult.ready (some (Except.ok (tokens.data.map Token.address)))) :=
  C4_idle_pull ⟨0, none, StreamStates.Checking⟩
    ⟨FutPoll.ready (Except.ok ()), FutPoll.ready (Except.ok DEMO_TOKENS)⟩ rfl

end Enso
